import Mathlib

/-!
# GraphBoy connection-synchronization core: a shallow embedding

This file embeds the connection-synchronization logic of
`src/frontend/main.js` (the GraphBoy frontend) in Lean and proves
properties of it.

The modelled state gathers the globals of `main.js`:
`connections` (a JS `Map` from connection id to entry), `pendingConnections`
(an array of descriptors), the wiring-gesture globals `isWiring`,
`currentWire`, `startPort`, and the contents of the Konva `mainLayer`
(component groups and committed wire lines).  Konva node identity is
modelled by an allocation counter `ref`; `mainLayer.draw()` calls are
counted in `draws`; `socket.send` appends to `sent`.

Conventions taken from the source:
* a port is a Konva `Circle` child of a component group whose `name()` is
  the port name; the direction of a port is encoded by that name
  (the input port is created with name "input", the output port with
  name "output");
* `getAbsolutePosition()` is total in Konva, so the null-position guards
  in `createWire` and `renderLoadedConnection` are unreachable and the
  model gives every port a concrete position;
* `findOne('#' + id)` is modelled as first-match lookup by id among the
  nodes of the relevant kind (component groups for component ids, wire
  lines for connection ids);
* comparing `getParent()` object identities is modelled as comparing the
  parent group ids (distinct groups carry distinct generated ids).
-/

namespace GraphBoy

/-- A Konva port node: a `Circle` child of a component group.  `portName`
is the Konva `name()` attribute; direction is encoded in it ("input" or
"output").  `className` is `getClassName()`. -/
structure Port where
  portName : String
  className : String
  x : Int
  y : Int
deriving DecidableEq, Repr

/-- A component group on the main layer (`Konva.Group` with a
`component_group` name), with its generated id and its child nodes that
port lookup can see. -/
structure ComponentGroup where
  compId : String
  ports : List Port
deriving DecidableEq, Repr

/-- A Konva `Line` on the main layer.  `ref` models JS object identity
(allocation order); `lineId` is the Konva `id` attribute (the draft wire
of a gesture is created without an id, modelled as ""). -/
structure Line where
  ref : Nat
  lineId : String
  pts : Int × Int × Int × Int
deriving DecidableEq, Repr

/-- An entry of the `connections` Map: `{id, from, to, line}` in the
source.  The parent component ids of the two ports are carried alongside
the port values (in JS the Konva port node knows its parent). -/
structure ConnEntry where
  id : String
  fromParent : String
  fromPort : Port
  toParent : String
  toPort : Port
  line : Line
deriving DecidableEq, Repr

/-- The params object of the connection protocol messages — also the
shape of a pending-queue descriptor (`pendingConnections` stores deep
copies of these). -/
structure ConnParams where
  connectionId : String
  sourceComponentId : String
  sourcePortName : String
  targetComponentId : String
  targetPortName : String
deriving DecidableEq, Repr

/-- An outbound JSON-RPC request recorded on `socket.send` (the
transport-level request id is not modelled; the core never reads it). -/
inductive OutMsg where
  | create (p : ConnParams)
  | delete (connectionId : String)
deriving DecidableEq, Repr

/-- The frontend state: the globals of `main.js` plus the main layer
contents and the observable effects (draw count, sent messages). -/
structure FrontendState where
  groups : List ComponentGroup
  lines : List Line
  connections : List (String × ConnEntry)
  pendingConnections : List ConnParams
  isWiring : Bool
  currentWire : Option Line
  startPort : Option (String × Port)
  nextRef : Nat
  draws : Nat
  sent : List OutMsg
  socketOpen : Bool
deriving DecidableEq, Repr

/-! ## JS `Map` semantics on an association list -/

/-- `connections.has(k)` -/
def mapHas (m : List (String × ConnEntry)) (k : String) : Bool :=
  m.any (fun kv => kv.1 == k)

/-- `connections.get(k)` -/
def mapGet (m : List (String × ConnEntry)) (k : String) : Option ConnEntry :=
  (m.find? (fun kv => kv.1 == k)).map (fun kv => kv.2)

/-- `connections.set(k, v)`: replace in place if the key is present,
otherwise append (JS `Map` keeps insertion order). -/
def mapSet (m : List (String × ConnEntry)) (k : String) (v : ConnEntry) :
    List (String × ConnEntry) :=
  if m.any (fun kv => kv.1 == k) then
    m.map (fun kv => if kv.1 == k then (k, v) else kv)
  else
    m ++ [(k, v)]

/-- `connections.delete(k)` -/
def mapDelete (m : List (String × ConnEntry)) (k : String) :
    List (String × ConnEntry) :=
  m.filter (fun kv => ¬ kv.1 == k)

/-! ## Konva lookups -/

/-- `mainStage.findOne('#' + componentId)` restricted to component
groups: first group with that id. -/
def findGroup (gs : List ComponentGroup) (cid : String) : Option ComponentGroup :=
  gs.find? (fun g => g.compId == cid)

/-- `mainStage.findOne('#' + connectionId)` restricted to wire lines:
first line with that id. -/
def findLine (ls : List Line) (lid : String) : Option Line :=
  ls.find? (fun l => l.lineId == lid)

/-- `component.find(node => node.name() === portName &&
node.getClassName() === 'Circle')` followed by taking element 0: the
first `Circle` child with the given name.  The lookup is by name and
shape only; it does not inspect the direction beyond the name itself. -/
def findPortCircle (g : ComponentGroup) (portName : String) : Option Port :=
  g.ports.find? (fun pt => pt.portName == portName && pt.className == "Circle")

/-- `line.destroy()`: remove the Konva node (by object identity). -/
def destroyLine (ls : List Line) (l : Line) : List Line :=
  ls.filter (fun x => ¬ x.ref == l.ref)

/-! ## `createWire` (main.js lines 243-308)

Constructs the permanent `Konva.Line` between the two ports' absolute
positions, adds it to the layer, stores the entry in `connections`, and
draws the layer.  The source returns `null` only when
`getAbsolutePosition()` returns nothing, which cannot happen in Konva;
the model keeps the `Option` return shape with `some` the only outcome.
`createWire` performs no existence check on `id`: it unconditionally adds
a new line and overwrites any Map entry for `id`. -/

def createWire (id : String) (fromParent : String) (fromPort : Port)
    (toParent : String) (toPort : Port) (s : FrontendState) :
    Option Line × FrontendState :=
  let wire : Line :=
    { ref := s.nextRef, lineId := id,
      pts := (fromPort.x, fromPort.y, toPort.x, toPort.y) }
  let entry : ConnEntry :=
    { id := id, fromParent := fromParent, fromPort := fromPort,
      toParent := toParent, toPort := toPort, line := wire }
  (some wire,
    { s with
      lines := s.lines ++ [wire],
      connections := mapSet s.connections id entry,
      nextRef := s.nextRef + 1,
      draws := s.draws + 1 })

/-! ## `renderLoadedConnection` (main.js lines 310-413) -/

/-- The queue-if-absent step used on both deferral paths: push a deep
copy unless an entry with the same `connectionId` is already queued
(the source keeps the existing entry and does not replace it). -/
def queueIfAbsent (p : ConnParams) (s : FrontendState) : FrontendState :=
  if s.pendingConnections.any (fun q => q.connectionId == p.connectionId) then s
  else { s with pendingConnections := s.pendingConnections ++ [p] }

/-- `renderLoadedConnection(params)`: resolve both components, then both
ports; defer to the pending queue when either is missing; on resolution
remove the first matching pending entry, then either adopt an existing
line with this id (repairing a missing Map entry) or create the wire.
Returns the source's boolean result together with the new state.  The
`isRetry` argument of the source only changes the log prefix and is
dropped. -/
def renderLoadedConnection (p : ConnParams) (s : FrontendState) :
    Bool × FrontendState :=
  match findGroup s.groups p.sourceComponentId,
        findGroup s.groups p.targetComponentId with
  | some sc, some tc =>
    match findPortCircle sc p.sourcePortName,
          findPortCircle tc p.targetPortName with
    | some sp, some tp =>
      let s :=
        { s with
          pendingConnections :=
            s.pendingConnections.eraseP
              (fun q => q.connectionId == p.connectionId) }
      match findLine s.lines p.connectionId with
      | some l =>
        if mapHas s.connections p.connectionId then
          (true, s)
        else
          (true,
            { s with
              connections :=
                mapSet s.connections p.connectionId
                  { id := p.connectionId,
                    fromParent := p.sourceComponentId, fromPort := sp,
                    toParent := p.targetComponentId, toPort := tp,
                    line := l } })
      | none =>
        match createWire p.connectionId p.sourceComponentId sp
                p.targetComponentId tp s with
        | (some _, s) => (true, s)
        | (none, s) => (false, s)
    | _, _ => (false, queueIfAbsent p s)
  | _, _ => (false, queueIfAbsent p s)

/-! ## `processPendingConnections` (main.js lines 415-448) and its
debounced trigger -/

/-- The loop body of `processPendingConnections` for one snapshot id:
look the id up in the current queue (it may have been removed by an
earlier iteration of the same pass), attempt to render it, and bump
`successfullyRenderedCount` on success. -/
def coreStep (acc : FrontendState × Nat) (cid : String) :
    FrontendState × Nat :=
  match acc.1.pendingConnections.find? (fun q => q.connectionId == cid) with
  | some p =>
    let r := renderLoadedConnection p acc.1
    (r.2, if r.1 then acc.2 + 1 else acc.2)
  | none => acc

/-- The loop of `processPendingConnections` over the snapshot of queued
connection ids, threading the state and `successfullyRenderedCount`. -/
def processPendingCore (ids : List String) (s : FrontendState) :
    FrontendState × Nat :=
  ids.foldl coreStep (s, 0)

/-- `processPendingConnections()`: snapshot the queued ids, attempt each
(skipping ids whose entry was already removed mid-pass), and draw the
layer once after the pass when at least one resolved. -/
def processPendingConnections (s : FrontendState) : FrontendState :=
  let ids := s.pendingConnections.map (fun q => q.connectionId)
  if ids.isEmpty then s
  else
    let r := processPendingCore ids s
    if r.2 > 0 then { r.1 with draws := r.1.draws + 1 } else r.1

/-- The debounce wait passed to `debounce(processPendingConnections, 16)`. -/
def debounceWait : Nat := 16

/-- The `debounce` utility of main.js: each call clears the pending
timer and schedules the function `wait` ms later, so a scheduled firing
survives only if no further call arrives strictly before it.  Given the
ascending list of call times, this computes the list of firing times. -/
def debounceFires (wait : Nat) : List Nat → List Nat
  | [] => []
  | [t] => [t + wait]
  | t :: t2 :: rest =>
    if t2 < t + wait then debounceFires wait (t2 :: rest)
    else (t + wait) :: debounceFires wait (t2 :: rest)

/-- The `mainStage.on('add')` filter: the debounced drain is invoked
exactly when the added node is named `component_group` and sits on the
main layer. -/
def addEventTriggersDrain (targetName : String) (onMainLayer : Bool) : Bool :=
  targetName == "component_group" && onMainLayer

/-! ## Inbound message dispatch (`socket.onmessage`, main.js lines 161-241) -/

/-- A raw inbound socket message after the `JSON.parse` attempt:
either the parse threw, or it produced an object with a `method` string
and an optional `params` object.  (Accessing a field of an absent
`params` throws a TypeError; an absent field of a present `params` is
merely `undefined`.) -/
inductive RawMsg where
  | malformed
  | parsed (method : String) (params : Option ConnParams)
deriving DecidableEq, Repr

/-- What the handler did with a message (all outcomes are logged by the
source; none escapes the try/catch). -/
inductive HandleResult where
  | ok
  | selfEcho
  | removeMissing
  | loadMissingParams
  | parseError
  | thrown
  | unknownMethod
deriving DecidableEq, Repr

/-- `socket.onmessage`: dispatch on the method name inside a try/catch.
Branch order and behaviour follow the source:
`v1.connection.load` (explicit params check, no throw),
`component.emitOutput` (reads `params.componentId` unconditionally, so
absent params throw; the display update itself is canvas-display state
outside the modelled core and leaves the modelled state unchanged),
`v1.connection.created` (self-echo check, else render-or-queue),
`v1.connection.removed` (destroy + delete if present, warn otherwise),
anything else falls through with no further action. -/
def handleMessage (m : RawMsg) (s : FrontendState) :
    FrontendState × HandleResult :=
  match m with
  | .malformed => (s, .parseError)
  | .parsed method params =>
    if method == "v1.connection.load" then
      match params with
      | some p => ((renderLoadedConnection p s).2, .ok)
      | none => (s, .loadMissingParams)
    else if method == "component.emitOutput" then
      match params with
      | some _ => (s, .ok)
      | none => (s, .thrown)
    else if method == "v1.connection.created" then
      match params with
      | none => (s, .thrown)
      | some p =>
        if mapHas s.connections p.connectionId then (s, .selfEcho)
        else ((renderLoadedConnection p s).2, .ok)
    else if method == "v1.connection.removed" then
      match params with
      | none => (s, .thrown)
      | some p =>
        match mapGet s.connections p.connectionId with
        | some e =>
          ({ s with
              lines := destroyLine s.lines e.line,
              connections := mapDelete s.connections p.connectionId,
              draws := s.draws + 1 }, .ok)
        | none => (s, .removeMissing)
    else (s, .unknownMethod)

/-- Processing a stream of inbound messages in arrival order. -/
def processMessages (ms : List RawMsg) (s : FrontendState) : FrontendState :=
  ms.foldl (fun st m => (handleMessage m st).1) s

/-! ## The wiring gesture (main.js lines 689-776, 805-831) and the wire
context menu (lines 275-303) -/

/-- `outputPort.on('mousedown')`: begin a wiring session.  Records the
start port, creates the dashed draft line at the port position, draws.
(The source also disables dragging of the parent group; node dragging is
canvas-layer state outside the modelled core.) -/
def outputMousedown (parentId : String) (port : Port) (s : FrontendState) :
    FrontendState :=
  let draft : Line :=
    { ref := s.nextRef, lineId := "", pts := (port.x, port.y, port.x, port.y) }
  { s with
    isWiring := true,
    startPort := some (parentId, port),
    currentWire := some draft,
    nextRef := s.nextRef + 1,
    draws := s.draws + 1 }

/-- `inputPort.on('mouseup')`: commit the gesture when a session is
active and the release port's parent differs from the start port's
parent; otherwise destroy the draft and reset.  On commit: destroy the
draft, create the permanent wire with a freshly minted connection id
(passed here as `freshId`), send the `v1.connection.create` request when
the socket is open, and reset the wiring state. -/
def inputMouseup (parentId : String) (port : Port) (freshId : String)
    (s : FrontendState) : FrontendState :=
  match s.isWiring, s.startPort with
  | true, some sp =>
    if ¬ sp.1 == parentId then
      let s := { s with currentWire := none }
      match createWire freshId sp.1 sp.2 parentId port s with
      | (some _, s) =>
        let msg : ConnParams :=
          { connectionId := freshId,
            sourceComponentId := sp.1, sourcePortName := sp.2.portName,
            targetComponentId := parentId, targetPortName := port.portName }
        let s :=
          if s.socketOpen then { s with sent := s.sent ++ [.create msg] } else s
        { s with isWiring := false, currentWire := none, startPort := none }
      | (none, s) =>
        { s with isWiring := false, currentWire := none, startPort := none }
    else
      { s with
        isWiring := false, currentWire := none, startPort := none,
        draws := s.draws + 1 }
  | _, _ =>
    { s with
      isWiring := false, currentWire := none, startPort := none,
      draws := s.draws + 1 }

/-- The confirmed branch of the wire's `contextmenu` handler: send
`v1.connection.delete` when the socket is open, delete the Map entry if
present, destroy this line, draw.  The id captured in the closure is the
id the wire was created with, i.e. `wire.lineId`. -/
def wireContextMenuDelete (wire : Line) (s : FrontendState) : FrontendState :=
  let s :=
    if s.socketOpen then { s with sent := s.sent ++ [.delete wire.lineId] }
    else s
  let s :=
    if mapHas s.connections wire.lineId then
      { s with connections := mapDelete s.connections wire.lineId }
    else s
  { s with lines := destroyLine s.lines wire, draws := s.draws + 1 }

/-! ## Derived notions used by the theorems -/

/-- A descriptor is resolvable against the current groups: both
components are found and both named ports are found within them. -/
def resolvable (gs : List ComponentGroup) (p : ConnParams) : Bool :=
  match findGroup gs p.sourceComponentId, findGroup gs p.targetComponentId with
  | some sc, some tc =>
    (findPortCircle sc p.sourcePortName).isSome &&
      (findPortCircle tc p.targetPortName).isSome
  | _, _ => false

/-- Number of lines on the layer carrying a given connection id. -/
def countLines (ls : List Line) (lid : String) : Nat :=
  (ls.filter (fun l => l.lineId == lid)).length

/-- Number of `connections` Map entries stored under a given key. -/
def countEntries (m : List (String × ConnEntry)) (k : String) : Nat :=
  (m.filter (fun kv => kv.1 == k)).length

/-- Number of pending-queue entries stored under a given connection id. -/
def countPending (l : List ConnParams) (cid : String) : Nat :=
  (l.filter (fun q => q.connectionId == cid)).length

/-! ## List helper lemmas -/

theorem find?_of_filter_singleton {α : Type} (q : α → Bool) :
    ∀ (l : List α) (a : α), l.filter q = [a] → l.find? q = some a := by
  intro l
  induction l with
  | nil => intro a h; simp [List.filter] at h
  | cons x xs ih =>
    intro a h
    by_cases hx : q x = true
    · rw [List.filter_cons_of_pos hx] at h
      obtain ⟨h1, _⟩ := List.cons.injEq x (List.filter q xs) a [] ▸ h
      simp only [List.cons.injEq] at h
      rw [List.find?_cons_of_pos _ hx, h.1]
    · rw [List.filter_cons_of_neg hx] at h
      rw [List.find?_cons_of_neg _ hx]
      exact ih a h

theorem filter_eraseP_of_incompat {α : Type} (q r : α → Bool)
    (hqr : ∀ x, q x = true → r x = false) :
    ∀ l : List α, (l.eraseP q).filter r = l.filter r := by
  intro l
  induction l with
  | nil => rfl
  | cons x xs ih =>
    by_cases hx : q x = true
    · rw [List.eraseP_cons_of_pos hx, List.filter_cons_of_neg (by simp [hqr x hx])]
    · rw [List.eraseP_cons_of_neg (by simp [hx]), List.filter_cons, List.filter_cons, ih]

theorem find?_append_of_none {α : Type} (q : α → Bool) (l1 l2 : List α)
    (h : l1.find? q = none) : (l1 ++ l2).find? q = l2.find? q := by
  induction l1 with
  | nil => rfl
  | cons x xs ih =>
    by_cases hx : q x = true
    · rw [List.find?_cons_of_pos _ hx] at h; exact absurd h (by simp)
    · rw [List.find?_cons_of_neg _ hx] at h
      rw [List.cons_append, List.find?_cons_of_neg _ hx]
      exact ih h

theorem mem_of_filter_singleton {α : Type} (q : α → Bool) (l : List α) (a : α)
    (h : l.filter q = [a]) : a ∈ l := by
  have : a ∈ l.filter q := by rw [h]; exact List.mem_singleton.mpr rfl
  exact List.mem_of_mem_filter this

/-! ## JS Map lemmas -/

theorem mapHas_set_self (m : List (String × ConnEntry)) (k : String) (v : ConnEntry) :
    mapHas (mapSet m k v) k = true := by
  unfold mapHas mapSet
  by_cases h : m.any (fun kv => kv.1 == k) = true
  · rw [if_pos h]
    rw [List.any_eq_true] at h
    obtain ⟨kv, hmem, hk⟩ := h
    rw [List.any_eq_true]
    refine ⟨(k, v), List.mem_map.mpr ⟨kv, hmem, by rw [if_pos hk]⟩, by simp⟩
  · rw [if_neg h, List.any_append]
    simp

theorem mapHas_set_mono (m : List (String × ConnEntry)) (k j : String) (v : ConnEntry)
    (h : mapHas m j = true) : mapHas (mapSet m k v) j = true := by
  unfold mapHas mapSet
  unfold mapHas at h
  by_cases hk : m.any (fun kv => kv.1 == k) = true
  · rw [if_pos hk]
    rw [List.any_eq_true] at h ⊢
    obtain ⟨kv, hmem, hj⟩ := h
    by_cases hkvk : (kv.1 == k) = true
    · refine ⟨(k, v), List.mem_map.mpr ⟨kv, hmem, by rw [if_pos hkvk]⟩, ?_⟩
      have : kv.1 = k := by simpa using hkvk
      simpa [← this] using hj
    · exact ⟨kv, List.mem_map.mpr ⟨kv, hmem, by rw [if_neg hkvk]⟩, hj⟩
  · rw [if_neg hk, List.any_append, h]
    rfl

theorem mapGet_set_self (m : List (String × ConnEntry)) (k : String) (v : ConnEntry) :
    mapGet (mapSet m k v) k = some v := by
  unfold mapGet mapSet
  by_cases h : m.any (fun kv => kv.1 == k) = true
  · rw [if_pos h]
    revert h
    induction m with
    | nil => intro h; simp at h
    | cons kv m ih =>
      intro h
      by_cases hk : (kv.1 == k) = true
      · simp only [List.map_cons, if_pos hk]
        rw [List.find?_cons_of_pos _ (by simp)]
        rfl
      · simp only [List.map_cons, if_neg hk]
        rw [List.find?_cons_of_neg _ (by simpa using hk)]
        apply ih
        rw [List.any_cons] at h
        simpa [hk] using h
  · rw [if_neg h]
    have hnone : m.find? (fun kv => kv.1 == k) = none := by
      rw [List.find?_eq_none]
      intro kv hmem
      intro hc
      exact h (List.any_eq_true.mpr ⟨kv, hmem, hc⟩)
    rw [find?_append_of_none _ _ _ hnone]
    rw [List.find?_cons_of_pos _ (by simp)]
    rfl

theorem countEntries_set_of_not_has (m : List (String × ConnEntry)) (k : String)
    (v : ConnEntry) (h : mapHas m k = false) :
    countEntries (mapSet m k v) k = 1 := by
  unfold countEntries mapSet
  unfold mapHas at h
  rw [if_neg (by simp [h]), List.filter_append]
  have hnil : m.filter (fun kv => kv.1 == k) = [] := by
    rw [List.filter_eq_nil_iff]
    intro kv hmem hc
    rw [List.any_eq_false] at h
    exact h kv hmem hc
  rw [hnil]
  simp

theorem mapHas_delete (m : List (String × ConnEntry)) (k : String) :
    mapHas (mapDelete m k) k = false := by
  unfold mapHas mapDelete
  rw [List.any_eq_false]
  intro kv hmem
  have := List.of_mem_filter hmem
  simpa using this

/-! ## Path characterizations of `renderLoadedConnection` -/

/-- Deferral path: when either component or either port is missing, the
call queues (unless already queued) and reports failure. -/
theorem render_deferred (p : ConnParams) (s : FrontendState)
    (h : resolvable s.groups p = false) :
    renderLoadedConnection p s = (false, queueIfAbsent p s) := by
  unfold renderLoadedConnection
  unfold resolvable at h
  cases hsc : findGroup s.groups p.sourceComponentId with
  | none => cases htc : findGroup s.groups p.targetComponentId <;> rfl
  | some sc =>
    cases htc : findGroup s.groups p.targetComponentId with
    | none => rfl
    | some tc =>
      rw [hsc, htc] at h
      cases hsp : findPortCircle sc p.sourcePortName with
      | none => cases htp : findPortCircle tc p.targetPortName <;> simp [hsp]
      | some sp =>
        cases htp : findPortCircle tc p.targetPortName with
        | none => simp [hsp, htp]
        | some tp => simp [hsp, htp] at h

/-- The fresh line `createWire` mints for a descriptor resolved to the
ports `sp`, `tp`, at allocation counter `n`. -/
def mintedLine (p : ConnParams) (sp tp : Port) (n : Nat) : Line :=
  { ref := n, lineId := p.connectionId, pts := (sp.x, sp.y, tp.x, tp.y) }

/-- The Map entry stored for a descriptor resolved to `sp`, `tp` with
line `l`. -/
def resolvedEntry (p : ConnParams) (sp tp : Port) (l : Line) : ConnEntry :=
  { id := p.connectionId, fromParent := p.sourceComponentId, fromPort := sp,
    toParent := p.targetComponentId, toPort := tp, line := l }

/-- Creation path: both components and ports resolve and no line with
this id is on the layer — the first matching pending entry is removed, a
fresh line is appended, the Map entry is set, and the layer is drawn. -/
theorem render_resolved_noline (p : ConnParams) (s : FrontendState)
    (sc tc : ComponentGroup) (sp tp : Port)
    (hsc : findGroup s.groups p.sourceComponentId = some sc)
    (htc : findGroup s.groups p.targetComponentId = some tc)
    (hsp : findPortCircle sc p.sourcePortName = some sp)
    (htp : findPortCircle tc p.targetPortName = some tp)
    (hnl : findLine s.lines p.connectionId = none) :
    renderLoadedConnection p s =
      (true,
        { s with
          pendingConnections :=
            s.pendingConnections.eraseP
              (fun q => q.connectionId == p.connectionId),
          lines := s.lines ++ [mintedLine p sp tp s.nextRef],
          connections :=
            mapSet s.connections p.connectionId
              (resolvedEntry p sp tp (mintedLine p sp tp s.nextRef)),
          nextRef := s.nextRef + 1,
          draws := s.draws + 1 }) := by
  unfold renderLoadedConnection
  rw [hsc, htc]
  simp only [hsp, htp, hnl, createWire, mintedLine, resolvedEntry]

/-- Adoption path, entry present: both resolve, a line with this id is
already on the layer and the Map already has the entry — only the
pending removal happens. -/
theorem render_resolved_line_has (p : ConnParams) (s : FrontendState)
    (sc tc : ComponentGroup) (sp tp : Port) (l : Line)
    (hsc : findGroup s.groups p.sourceComponentId = some sc)
    (htc : findGroup s.groups p.targetComponentId = some tc)
    (hsp : findPortCircle sc p.sourcePortName = some sp)
    (htp : findPortCircle tc p.targetPortName = some tp)
    (hl : findLine s.lines p.connectionId = some l)
    (hhas : mapHas s.connections p.connectionId = true) :
    renderLoadedConnection p s =
      (true,
        { s with
          pendingConnections :=
            s.pendingConnections.eraseP
              (fun q => q.connectionId == p.connectionId) }) := by
  unfold renderLoadedConnection
  rw [hsc, htc]
  simp only [hsp, htp, hl, hhas, if_pos]

/-- Adoption path, entry missing: both resolve, a line with this id is
already on the layer but the Map lacks the entry — the pending removal
happens and the existing line is adopted into a repaired Map entry. -/
theorem render_resolved_line_nohas (p : ConnParams) (s : FrontendState)
    (sc tc : ComponentGroup) (sp tp : Port) (l : Line)
    (hsc : findGroup s.groups p.sourceComponentId = some sc)
    (htc : findGroup s.groups p.targetComponentId = some tc)
    (hsp : findPortCircle sc p.sourcePortName = some sp)
    (htp : findPortCircle tc p.targetPortName = some tp)
    (hl : findLine s.lines p.connectionId = some l)
    (hhas : mapHas s.connections p.connectionId = false) :
    renderLoadedConnection p s =
      (true,
        { s with
          pendingConnections :=
            s.pendingConnections.eraseP
              (fun q => q.connectionId == p.connectionId),
          connections :=
            mapSet s.connections p.connectionId
              (resolvedEntry p sp tp l) }) := by
  unfold renderLoadedConnection
  rw [hsc, htc]
  simp only [hsp, htp, hl, hhas, resolvedEntry, Bool.false_eq_true, if_false]

/-- Unpack a successful resolvability check into the four lookups. -/
theorem resolvable_elim (gs : List ComponentGroup) (p : ConnParams)
    (h : resolvable gs p = true) :
    ∃ sc tc sp tp,
      findGroup gs p.sourceComponentId = some sc ∧
      findGroup gs p.targetComponentId = some tc ∧
      findPortCircle sc p.sourcePortName = some sp ∧
      findPortCircle tc p.targetPortName = some tp := by
  unfold resolvable at h
  cases hsc : findGroup gs p.sourceComponentId with
  | none => simp [hsc] at h
  | some sc =>
    cases htc : findGroup gs p.targetComponentId with
    | none => simp [hsc, htc] at h
    | some tc =>
      simp only [hsc, htc] at h
      cases hsp : findPortCircle sc p.sourcePortName with
      | none => simp [hsp] at h
      | some sp =>
        cases htp : findPortCircle tc p.targetPortName with
        | none => simp [hsp, htp] at h
        | some tp => exact ⟨sc, tc, sp, tp, rfl, rfl, hsp, htp⟩

/-- Fields of the state `renderLoadedConnection` never touches. -/
theorem render_frame (p : ConnParams) (s : FrontendState) :
    ((renderLoadedConnection p s).2).groups = s.groups ∧
    ((renderLoadedConnection p s).2).isWiring = s.isWiring ∧
    ((renderLoadedConnection p s).2).currentWire = s.currentWire ∧
    ((renderLoadedConnection p s).2).startPort = s.startPort ∧
    ((renderLoadedConnection p s).2).sent = s.sent ∧
    ((renderLoadedConnection p s).2).socketOpen = s.socketOpen := by
  by_cases hr : resolvable s.groups p = true
  · obtain ⟨sc, tc, sp, tp, hsc, htc, hsp, htp⟩ := resolvable_elim _ _ hr
    cases hl : findLine s.lines p.connectionId with
    | none =>
      rw [render_resolved_noline p s sc tc sp tp hsc htc hsp htp hl]
      simp
    | some l =>
      by_cases hh : mapHas s.connections p.connectionId = true
      · rw [render_resolved_line_has p s sc tc sp tp l hsc htc hsp htp hl hh]
        simp
      · rw [render_resolved_line_nohas p s sc tc sp tp l hsc htc hsp htp hl
          (by simpa using hh)]
        simp
  · rw [render_deferred p s (by simpa using hr)]
    unfold queueIfAbsent
    split <;> simp

/-- `renderLoadedConnection` never removes a Map entry. -/
theorem render_mapHas_mono (p : ConnParams) (s : FrontendState) (k : String)
    (h : mapHas s.connections k = true) :
    mapHas ((renderLoadedConnection p s).2).connections k = true := by
  by_cases hr : resolvable s.groups p = true
  · obtain ⟨sc, tc, sp, tp, hsc, htc, hsp, htp⟩ := resolvable_elim _ _ hr
    cases hl : findLine s.lines p.connectionId with
    | none =>
      rw [render_resolved_noline p s sc tc sp tp hsc htc hsp htp hl]
      exact mapHas_set_mono _ _ _ _ h
    | some l =>
      by_cases hh : mapHas s.connections p.connectionId = true
      · rw [render_resolved_line_has p s sc tc sp tp l hsc htc hsp htp hl hh]
        exact h
      · rw [render_resolved_line_nohas p s sc tc sp tp l hsc htc hsp htp hl
          (by simpa using hh)]
        exact mapHas_set_mono _ _ _ _ h
  · rw [render_deferred p s (by simpa using hr)]
    unfold queueIfAbsent
    split <;> exact h

/-- `renderLoadedConnection` never removes a line from the layer. -/
theorem render_lines_mono (p : ConnParams) (s : FrontendState) (l : Line)
    (h : l ∈ s.lines) :
    l ∈ ((renderLoadedConnection p s).2).lines := by
  by_cases hr : resolvable s.groups p = true
  · obtain ⟨sc, tc, sp, tp, hsc, htc, hsp, htp⟩ := resolvable_elim _ _ hr
    cases hl : findLine s.lines p.connectionId with
    | none =>
      rw [render_resolved_noline p s sc tc sp tp hsc htc hsp htp hl]
      simp [h]
    | some l2 =>
      by_cases hh : mapHas s.connections p.connectionId = true
      · rw [render_resolved_line_has p s sc tc sp tp l2 hsc htc hsp htp hl hh]
        exact h
      · rw [render_resolved_line_nohas p s sc tc sp tp l2 hsc htc hsp htp hl
          (by simpa using hh)]
        exact h
  · rw [render_deferred p s (by simpa using hr)]
    unfold queueIfAbsent
    split <;> exact h

/-! ## Drain-pass machinery -/

/-- The state effect of one drain iteration, with the success counter
stripped off. -/
def drainStep (cid : String) (s : FrontendState) : FrontendState :=
  match s.pendingConnections.find? (fun q => q.connectionId == cid) with
  | some p => (renderLoadedConnection p s).2
  | none => s

/-- The state effect of a whole drain pass over a snapshot of ids. -/
def drainFold (ids : List String) (s : FrontendState) : FrontendState :=
  ids.foldl (fun st cid => drainStep cid st) s

theorem coreStep_fst (a : FrontendState × Nat) (cid : String) :
    (coreStep a cid).1 = drainStep cid a.1 := by
  unfold coreStep drainStep
  cases a.1.pendingConnections.find? (fun q => q.connectionId == cid) <;> rfl

theorem coreFold_fst (ids : List String) :
    ∀ a : FrontendState × Nat,
      (ids.foldl coreStep a).1 = drainFold ids a.1 := by
  induction ids with
  | nil => intro a; rfl
  | cons cid rest ih =>
    intro a
    unfold drainFold
    simp only [List.foldl_cons]
    rw [ih (coreStep a cid), coreStep_fst]
    rfl

/-- The id `X` has been promoted: a Map entry is stored under it and a
line with that id is on the layer. -/
def promoted (s : FrontendState) (X : String) : Prop :=
  mapHas s.connections X = true ∧ ∃ l ∈ s.lines, l.lineId = X

/-- The descriptor `p` for id `X` is waiting: it is the unique queued
entry under `X`, it is resolvable against the current groups, and no
line with id `X` is on the layer yet. -/
def waitingFor (s : FrontendState) (X : String) (p : ConnParams) : Prop :=
  s.pendingConnections.filter (fun q => q.connectionId == X) = [p] ∧
  p.connectionId = X ∧
  resolvable s.groups p = true ∧
  findLine s.lines X = none

theorem drainStep_promoted (cid X : String) (s : FrontendState)
    (h : promoted s X) : promoted (drainStep cid s) X := by
  unfold drainStep
  cases hf : s.pendingConnections.find? (fun q => q.connectionId == cid) with
  | none => exact h
  | some p =>
    obtain ⟨hhas, l, hmem, hid⟩ := h
    exact ⟨render_mapHas_mono p s X hhas, l, render_lines_mono p s l hmem, hid⟩

theorem drainStep_waiting (cid X : String) (p : ConnParams) (s : FrontendState)
    (hne : cid ≠ X) (h : waitingFor s X p) :
    waitingFor (drainStep cid s) X p := by
  obtain ⟨hfil, hpid, hres, hnl⟩ := h
  unfold drainStep
  cases hf : s.pendingConnections.find? (fun q => q.connectionId == cid) with
  | none => exact ⟨hfil, hpid, hres, hnl⟩
  | some q =>
    have hqid : q.connectionId = cid := by
      have := List.find?_some hf
      simpa using this
    have hincompat :
        ∀ x : ConnParams, (x.connectionId == q.connectionId) = true →
          (x.connectionId == X) = false := by
      intro x hx
      have : x.connectionId = q.connectionId := by simpa using hx
      simp [this, hqid, hne]
    show waitingFor ((renderLoadedConnection q s).2) X p
    by_cases hr : resolvable s.groups q = true
    · obtain ⟨sc, tc, sp, tp, hsc, htc, hsp, htp⟩ := resolvable_elim _ _ hr
      cases hl : findLine s.lines q.connectionId with
      | none =>
        rw [render_resolved_noline q s sc tc sp tp hsc htc hsp htp hl]
        refine ⟨?_, hpid, hres, ?_⟩
        · simpa using
            (filter_eraseP_of_incompat _ _ hincompat
              s.pendingConnections).trans hfil
        · show findLine (s.lines ++ [mintedLine q sp tp s.nextRef]) X = none
          unfold findLine at hnl ⊢
          rw [find?_append_of_none _ _ _ hnl]
          simp [mintedLine, hqid, hne]
      | some l =>
        by_cases hh : mapHas s.connections q.connectionId = true
        · rw [render_resolved_line_has q s sc tc sp tp l hsc htc hsp htp hl hh]
          refine ⟨?_, hpid, hres, hnl⟩
          simpa using
            (filter_eraseP_of_incompat _ _ hincompat
              s.pendingConnections).trans hfil
        · rw [render_resolved_line_nohas q s sc tc sp tp l hsc htc hsp htp hl
            (by simpa using hh)]
          refine ⟨?_, hpid, hres, hnl⟩
          simpa using
            (filter_eraseP_of_incompat _ _ hincompat
              s.pendingConnections).trans hfil
    · rw [render_deferred q s (by simpa using hr)]
      have hqmem : q ∈ s.pendingConnections := List.mem_of_find?_eq_some hf
      have hany :
          (s.pendingConnections.any
            (fun x => x.connectionId == q.connectionId)) = true :=
        List.any_eq_true.mpr ⟨q, hqmem, by simp⟩
      unfold queueIfAbsent
      rw [if_pos hany]
      exact ⟨hfil, hpid, hres, hnl⟩

theorem drainStep_promotes (X : String) (p : ConnParams) (s : FrontendState)
    (h : waitingFor s X p) : promoted (drainStep X s) X := by
  obtain ⟨hfil, hpid, hres, hnl⟩ := h
  unfold drainStep
  have hf : s.pendingConnections.find? (fun q => q.connectionId == X) = some p :=
    find?_of_filter_singleton _ _ _ hfil
  rw [hf]
  show promoted ((renderLoadedConnection p s).2) X
  obtain ⟨sc, tc, sp, tp, hsc, htc, hsp, htp⟩ := resolvable_elim _ _ hres
  have hl : findLine s.lines p.connectionId = none := by rw [hpid]; exact hnl
  rw [render_resolved_noline p s sc tc sp tp hsc htc hsp htp hl]
  constructor
  · show mapHas (mapSet s.connections p.connectionId _) X = true
    rw [← hpid]
    exact mapHas_set_self _ _ _
  · exact ⟨mintedLine p sp tp s.nextRef, by simp, by simp [mintedLine, hpid]⟩

theorem drainFold_promotes (X : String) (p : ConnParams) :
    ∀ (ids : List String) (s : FrontendState),
      (promoted s X ∨ (X ∈ ids ∧ waitingFor s X p)) →
      promoted (drainFold ids s) X := by
  intro ids
  induction ids with
  | nil =>
    intro s h
    rcases h with h | ⟨hmem, _⟩
    · exact h
    · simp at hmem
  | cons cid rest ih =>
    intro s h
    show promoted (drainFold rest (drainStep cid s)) X
    rcases h with h | ⟨hmem, hw⟩
    · exact ih _ (Or.inl (drainStep_promoted cid X s h))
    · by_cases hc : cid = X
      · subst hc
        exact ih _ (Or.inl (drainStep_promotes cid p s hw))
      · have hmem2 : X ∈ rest := by
          rcases List.mem_cons.mp hmem with h1 | h1
          · exact absurd h1.symm hc
          · exact h1
        exact ih _ (Or.inr ⟨hmem2, drainStep_waiting cid X p s hc hw⟩)

/-- A waiting descriptor is promoted by a full drain pass: the snapshot
contains its id, earlier iterations of the pass cannot disturb it, and
its own iteration creates the entry and the line. -/
theorem drain_promotes (X : String) (p : ConnParams) (s : FrontendState)
    (h : waitingFor s X p) : promoted (processPendingConnections s) X := by
  have hpmem : p ∈ s.pendingConnections := mem_of_filter_singleton _ _ _ h.1
  have hXmem : X ∈ s.pendingConnections.map (fun q => q.connectionId) :=
    List.mem_map.mpr ⟨p, hpmem, h.2.1⟩
  unfold processPendingConnections
  have hne : (s.pendingConnections.map (fun q => q.connectionId)).isEmpty = false := by
    cases hmap : s.pendingConnections.map (fun q => q.connectionId) with
    | nil => rw [hmap] at hXmem; simp at hXmem
    | cons a l => rfl
  simp only [hne, Bool.false_eq_true, if_false]
  have hfold :
      promoted
        (drainFold (s.pendingConnections.map (fun q => q.connectionId)) s) X :=
    drainFold_promotes X p _ s (Or.inr ⟨hXmem, h⟩)
  rw [← coreFold_fst _ (s, 0)] at hfold
  split
  · exact hfold
  · exact hfold

/-! ## Draw accounting of the drain -/

theorem render_draws_lines (p : ConnParams) (s : FrontendState) :
    ((renderLoadedConnection p s).2).draws + s.lines.length =
      s.draws + ((renderLoadedConnection p s).2).lines.length := by
  by_cases hr : resolvable s.groups p = true
  · obtain ⟨sc, tc, sp, tp, hsc, htc, hsp, htp⟩ := resolvable_elim _ _ hr
    cases hl : findLine s.lines p.connectionId with
    | none =>
      rw [render_resolved_noline p s sc tc sp tp hsc htc hsp htp hl]
      simp only [List.length_append, List.length_cons, List.length_nil]
      omega
    | some l =>
      by_cases hh : mapHas s.connections p.connectionId = true
      · rw [render_resolved_line_has p s sc tc sp tp l hsc htc hsp htp hl hh]
      · rw [render_resolved_line_nohas p s sc tc sp tp l hsc htc hsp htp hl
          (by simpa using hh)]
  · rw [render_deferred p s (by simpa using hr)]
    unfold queueIfAbsent
    split <;> rfl

theorem drainStep_draws_lines (cid : String) (s : FrontendState) :
    (drainStep cid s).draws + s.lines.length =
      s.draws + (drainStep cid s).lines.length := by
  unfold drainStep
  cases hf : s.pendingConnections.find? (fun q => q.connectionId == cid) with
  | none => rfl
  | some p => exact render_draws_lines p s

theorem drainFold_draws_lines (ids : List String) :
    ∀ s : FrontendState,
      (drainFold ids s).draws + s.lines.length =
        s.draws + (drainFold ids s).lines.length := by
  induction ids with
  | nil => intro s; rfl
  | cons cid rest ih =>
    intro s
    have h1 := drainStep_draws_lines cid s
    have h2 := ih (drainStep cid s)
    show (drainFold rest (drainStep cid s)).draws + s.lines.length =
      s.draws + (drainFold rest (drainStep cid s)).lines.length
    omega

/-! ## Dispatch equations for the four recognized methods -/

theorem handleMessage_load (p : ConnParams) (s : FrontendState) :
    handleMessage (.parsed "v1.connection.load" (some p)) s =
      ((renderLoadedConnection p s).2, .ok) := rfl

theorem handleMessage_created (p : ConnParams) (s : FrontendState) :
    handleMessage (.parsed "v1.connection.created" (some p)) s =
      if mapHas s.connections p.connectionId then (s, .selfEcho)
      else ((renderLoadedConnection p s).2, .ok) := rfl

theorem handleMessage_removed (pX : ConnParams) (s : FrontendState) :
    handleMessage (.parsed "v1.connection.removed" (some pX)) s =
      match mapGet s.connections pX.connectionId with
      | some e =>
        ({ s with
            lines := destroyLine s.lines e.line,
            connections := mapDelete s.connections pX.connectionId,
            draws := s.draws + 1 }, .ok)
      | none => (s, .removeMissing) := rfl

/-- Whenever the handler catches a parse error, catches a dispatch
throw, or falls through on an unrecognized method, the state is exactly
the pre-message state. -/
theorem handleMessage_no_crash (m : RawMsg) (s : FrontendState)
    (h : (handleMessage m s).2 = .parseError ∨
         (handleMessage m s).2 = .thrown ∨
         (handleMessage m s).2 = .unknownMethod) :
    (handleMessage m s).1 = s := by
  cases m with
  | malformed => rfl
  | parsed method params =>
    simp only [handleMessage] at h ⊢
    by_cases h1 : (method == "v1.connection.load") = true
    · rw [if_pos h1] at h ⊢
      cases params with
      | some p => simp at h
      | none => rfl
    · rw [if_neg h1] at h ⊢
      by_cases h2 : (method == "component.emitOutput") = true
      · rw [if_pos h2] at h ⊢
        cases params with
        | some p => rfl
        | none => rfl
      · rw [if_neg h2] at h ⊢
        by_cases h3 : (method == "v1.connection.created") = true
        · rw [if_pos h3] at h ⊢
          cases params with
          | none => rfl
          | some p =>
            by_cases hh : mapHas s.connections p.connectionId = true
            · simp [hh] at h
            · simp [hh] at h
        · rw [if_neg h3] at h ⊢
          by_cases h4 : (method == "v1.connection.removed") = true
          · rw [if_pos h4] at h ⊢
            cases params with
            | none => rfl
            | some p =>
              cases hg : mapGet s.connections p.connectionId with
              | some e => simp [hg] at h
              | none => simp [hg]
          · rw [if_neg h4] at h ⊢

/-! ## A few more Map and count lemmas -/

theorem mapGet_none_iff (m : List (String × ConnEntry)) (k : String) :
    mapGet m k = none ↔ mapHas m k = false := by
  unfold mapGet mapHas
  constructor
  · intro h
    cases hf : m.find? (fun kv => kv.1 == k) with
    | some kv => rw [hf] at h; simp at h
    | none =>
      rw [List.find?_eq_none] at hf
      rw [List.any_eq_false]
      exact hf
  · intro h
    rw [List.any_eq_false] at h
    rw [List.find?_eq_none.mpr h]
    rfl

theorem countLines_zero_of_findLine_none (ls : List Line) (lid : String)
    (h : findLine ls lid = none) : countLines ls lid = 0 := by
  unfold countLines
  unfold findLine at h
  rw [List.find?_eq_none] at h
  rw [List.filter_eq_nil_iff.mpr h]
  rfl

theorem countLines_append (l1 l2 : List Line) (lid : String) :
    countLines (l1 ++ l2) lid = countLines l1 lid + countLines l2 lid := by
  unfold countLines
  rw [List.filter_append, List.length_append]

theorem countPending_eraseP_self (X : String) :
    ∀ l : List ConnParams,
      countPending l X ≤ 1 →
      countPending (l.eraseP (fun q => q.connectionId == X)) X = 0 := by
  intro l
  induction l with
  | nil => intro _; rfl
  | cons a l ih =>
    intro h
    by_cases ha : (a.connectionId == X) = true
    · simp only [List.eraseP_cons, ha, cond_true]
      unfold countPending at h ⊢
      simp only [List.filter_cons, ha, if_true, List.length_cons] at h
      omega
    · simp only [List.eraseP_cons, ha, cond_false]
      unfold countPending at h ⊢
      simp only [List.filter_cons, ha, if_false] at h ⊢
      exact ih h

theorem countPending_eraseP_le (X : String) (l : List ConnParams) :
    countPending (l.eraseP (fun q => q.connectionId == X)) X ≤
      countPending l X := by
  unfold countPending
  exact ((List.eraseP_sublist l).filter _).length_le

theorem countPending_sublist_le (l2 l : List ConnParams)
    (h : l2.Sublist l) (Y : String) :
    countPending l2 Y ≤ countPending l Y :=
  ((h.filter _).length_le)

theorem countPending_append (l1 l2 : List ConnParams) (Y : String) :
    countPending (l1 ++ l2) Y = countPending l1 Y + countPending l2 Y := by
  unfold countPending
  rw [List.filter_append, List.length_append]

theorem countPending_pos_iff_any (l : List ConnParams) (X : String) :
    (l.any (fun q => q.connectionId == X)) = true ↔ 0 < countPending l X := by
  unfold countPending
  rw [List.any_eq_true]
  constructor
  · rintro ⟨q, hm, hp⟩
    have hmem : q ∈ l.filter (fun q => q.connectionId == X) :=
      List.mem_filter.mpr ⟨hm, hp⟩
    exact List.length_pos.mpr (fun hnil => by rw [hnil] at hmem; simp at hmem)
  · intro h
    obtain ⟨q, hq⟩ := List.exists_mem_of_length_pos h
    have hq2 := List.mem_filter.mp hq
    exact ⟨q, hq2.1, hq2.2⟩

/-! ## Concrete fixtures for witnesses and counterexamples -/

/-- The input-port circle every dropped component carries. -/
def portIn : Port := { portName := "input", className := "Circle", x := 0, y := 25 }

/-- The output-port circle every dropped component carries. -/
def portOut : Port := { portName := "output", className := "Circle", x := 50, y := 25 }

def g1 : ComponentGroup := { compId := "n1", ports := [portIn, portOut] }

def g2 : ComponentGroup := { compId := "n2", ports := [portIn, portOut] }

/-- A baseline state: two components on the canvas, nothing else. -/
def s0 : FrontendState :=
  { groups := [g1, g2], lines := [], connections := [],
    pendingConnections := [], isWiring := false, currentWire := none,
    startPort := none, nextRef := 0, draws := 0, sent := [],
    socketOpen := true }

/-- A well-formed descriptor for a wire from the output of n1 to the
input of n2. -/
def pC1 : ConnParams :=
  { connectionId := "c1", sourceComponentId := "n1",
    sourcePortName := "output", targetComponentId := "n2",
    targetPortName := "input" }

def lineC1 : Line := { ref := 0, lineId := "c1", pts := (50, 25, 0, 25) }

def entryC1 : ConnEntry :=
  { id := "c1", fromParent := "n1", fromPort := portOut,
    toParent := "n2", toPort := portIn, line := lineC1 }

/-- The baseline state after the wire c1 has been committed. -/
def sHasC1 : FrontendState :=
  { s0 with
    lines := [lineC1],
    connections := [("c1", entryC1)],
    nextRef := 1 }

/-- The baseline state during a wiring drag begun on the output port of
n1. -/
def sWiring : FrontendState :=
  { s0 with
    isWiring := true,
    startPort := some ("n1", portOut),
    currentWire := some { ref := 0, lineId := "", pts := (50, 25, 50, 25) },
    nextRef := 1,
    draws := 1 }

theorem mem_destroyLine (ls : List Line) (l x : Line) :
    x ∈ destroyLine ls l ↔ x ∈ ls ∧ x.ref ≠ l.ref := by
  unfold destroyLine
  rw [List.mem_filter]
  simp

/-- What the context-menu delete does to the connections Map and the
layer lines (the sent messages and draw count aside). -/
theorem wireContextMenuDelete_conn_lines (wire : Line) (s : FrontendState) :
    (wireContextMenuDelete wire s).connections =
      (if mapHas s.connections wire.lineId then
        mapDelete s.connections wire.lineId
      else s.connections) ∧
    (wireContextMenuDelete wire s).lines = destroyLine s.lines wire := by
  unfold wireContextMenuDelete
  by_cases hso : s.socketOpen = true <;>
    by_cases hh : mapHas s.connections wire.lineId = true <;>
      simp [hso, hh]

/-! ## Claim theorems -/

/-- C3: no self-loop at gesture commit.  During an active wiring session
(isWiring set, a start port recorded) whose minted id is fresh, releasing
on an input port commits a Map entry if and only if the release port's
parent differs from the start port's parent; when the parents coincide
the release commits nothing — the connections Map, layer lines, sent
messages and pending queue are unchanged and the draft edge is
destroyed. -/
theorem c3_no_self_loop (s : FrontendState) (parentId : String) (port : Port)
    (freshId : String) (spParent : String) (sp : Port)
    (hw : s.isWiring = true) (hsp : s.startPort = some (spParent, sp))
    (hfresh : mapHas s.connections freshId = false) :
    (mapHas (inputMouseup parentId port freshId s).connections freshId = true ↔
      spParent ≠ parentId) ∧
    (spParent = parentId →
      (inputMouseup parentId port freshId s).connections = s.connections ∧
      (inputMouseup parentId port freshId s).lines = s.lines ∧
      (inputMouseup parentId port freshId s).sent = s.sent ∧
      (inputMouseup parentId port freshId s).pendingConnections =
        s.pendingConnections ∧
      (inputMouseup parentId port freshId s).currentWire = none) := by
  by_cases heq : spParent = parentId
  · have hres :
        inputMouseup parentId port freshId s =
          { s with
            isWiring := false, currentWire := none, startPort := none,
            draws := s.draws + 1 } := by
      simp only [inputMouseup, hw, hsp]
      simp [heq]
    rw [hres]
    constructor
    · constructor
      · intro hhas
        exact absurd hhas (by simp [hfresh])
      · intro hne
        exact absurd heq hne
    · intro _
      exact ⟨rfl, rfl, rfl, rfl, rfl⟩
  · have hres :
        (inputMouseup parentId port freshId s).connections =
          mapSet s.connections freshId
            { id := freshId, fromParent := spParent, fromPort := sp,
              toParent := parentId, toPort := port,
              line := { ref := s.nextRef, lineId := freshId,
                        pts := (sp.x, sp.y, port.x, port.y) } } := by
      simp only [inputMouseup, hw, hsp]
      simp only [createWire]
      by_cases hso : s.socketOpen = true <;> simp [heq, hso]
    constructor
    · rw [hres]
      simp only [mapHas_set_self]
      simp [heq]
    · intro habs
      exact absurd habs heq

/-- C3 witness: a self-loop release on n1 while dragging from n1 changes
nothing and destroys the draft. -/
theorem c3_no_self_loop_witness :
    (mapHas (inputMouseup "n1" portIn "c9" sWiring).connections "c9" = true ↔
      ("n1" : String) ≠ "n1") ∧
    (("n1" : String) = "n1" →
      (inputMouseup "n1" portIn "c9" sWiring).connections =
        sWiring.connections ∧
      (inputMouseup "n1" portIn "c9" sWiring).lines = sWiring.lines ∧
      (inputMouseup "n1" portIn "c9" sWiring).sent = sWiring.sent ∧
      (inputMouseup "n1" portIn "c9" sWiring).pendingConnections =
        sWiring.pendingConnections ∧
      (inputMouseup "n1" portIn "c9" sWiring).currentWire = none) :=
  c3_no_self_loop sWiring "n1" portIn "c9" "n1" portOut rfl rfl rfl

/-- C6: deletion symmetry.  Processing a v1.connection.removed for id X
on a state whose layer lines with id X are exactly the stored entry's
line leaves no Map entry X and no line with id X; removal for a
never-stored id changes nothing and throws nothing; the local
context-menu delete of a wire behaves symmetrically. -/
theorem c6_deletion_symmetry (s : FrontendState) (pX : ConnParams)
    (wire : Line) :
    ((∀ l ∈ s.lines, l.lineId = pX.connectionId →
        ∃ e, mapGet s.connections pX.connectionId = some e ∧
          l.ref = e.line.ref) →
      mapHas
          ((handleMessage
            (.parsed "v1.connection.removed" (some pX)) s).1).connections
          pX.connectionId = false ∧
      ∀ l ∈ ((handleMessage
            (.parsed "v1.connection.removed" (some pX)) s).1).lines,
        l.lineId ≠ pX.connectionId) ∧
    (mapHas s.connections pX.connectionId = false →
      (handleMessage (.parsed "v1.connection.removed" (some pX)) s).1 = s) ∧
    ((∀ l ∈ s.lines, l.lineId = wire.lineId → l.ref = wire.ref) →
      mapHas (wireContextMenuDelete wire s).connections wire.lineId = false ∧
      ∀ l ∈ (wireContextMenuDelete wire s).lines,
        l.lineId ≠ wire.lineId) := by
  refine ⟨?_, ?_, ?_⟩
  · intro hco
    rw [handleMessage_removed]
    cases hget : mapGet s.connections pX.connectionId with
    | none =>
      constructor
      · show mapHas s.connections pX.connectionId = false
        exact (mapGet_none_iff _ _).mp hget
      · intro l hl hid
        obtain ⟨e, he, _⟩ := hco l hl hid
        rw [hget] at he
        cases he
    | some e =>
      constructor
      · show mapHas (mapDelete s.connections pX.connectionId)
            pX.connectionId = false
        exact mapHas_delete _ _
      · intro l hl hid
        have hl2 := (mem_destroyLine s.lines e.line l).mp hl
        obtain ⟨e2, he2, href⟩ := hco l hl2.1 hid
        rw [hget] at he2
        injection he2 with he3
        rw [← he3] at href
        exact hl2.2 href
  · intro h
    rw [handleMessage_removed]
    rw [(mapGet_none_iff _ _).mpr h]
  · intro hco
    obtain ⟨hconn, hlines⟩ := wireContextMenuDelete_conn_lines wire s
    constructor
    · rw [hconn]
      by_cases hhas : mapHas s.connections wire.lineId = true
      · rw [if_pos hhas]
        exact mapHas_delete _ _
      · rw [if_neg hhas]
        simpa using hhas
    · intro l hl hid
      rw [hlines] at hl
      have hl2 := (mem_destroyLine s.lines wire l).mp hl
      exact hl2.2 (hco l hl2.1 hid)

/-- C6 witness: removing the stored wire c1 clears both artifacts, and
removal of c1 on the empty baseline is a no-op. -/
theorem c6_deletion_symmetry_witness :
    (mapHas
        ((handleMessage
          (.parsed "v1.connection.removed" (some pC1)) sHasC1).1).connections
        "c1" = false ∧
      ∀ l ∈ ((handleMessage
            (.parsed "v1.connection.removed" (some pC1)) sHasC1).1).lines,
        l.lineId ≠ "c1") ∧
    (handleMessage (.parsed "v1.connection.removed" (some pC1)) s0).1 = s0 := by
  constructor
  · exact (c6_deletion_symmetry sHasC1 pC1 lineC1).1
      (by
        intro l hl hid
        have : l = lineC1 := by simpa [sHasC1, s0] using hl
        subst this
        exact ⟨entryC1, rfl, rfl⟩)
  · exact (c6_deletion_symmetry s0 pC1 lineC1).2.1 rfl

/-- C8: malformed-message containment.  A message whose parse throws,
whose dispatch throws, or whose method is unrecognized leaves the state
exactly as before, and processing of subsequent messages continues from
that unchanged state. -/
theorem c8_malformed_containment (m : RawMsg) (s : FrontendState)
    (rest : List RawMsg) :
    ((handleMessage m s).2 = .parseError → (handleMessage m s).1 = s) ∧
    ((handleMessage m s).2 = .thrown → (handleMessage m s).1 = s) ∧
    ((handleMessage m s).2 = .unknownMethod → (handleMessage m s).1 = s) ∧
    processMessages (.malformed :: rest) s = processMessages rest s := by
  refine ⟨?_, ?_, ?_, rfl⟩
  · intro h
    exact handleMessage_no_crash m s (Or.inl h)
  · intro h
    exact handleMessage_no_crash m s (Or.inr (Or.inl h))
  · intro h
    exact handleMessage_no_crash m s (Or.inr (Or.inr h))

/-- C8 witness: an unknown method, a removed message missing its params
object, and an unparseable payload each leave the baseline unchanged. -/
theorem c8_malformed_containment_witness :
    (handleMessage (.parsed "v9.unknown" (some pC1)) s0).1 = s0 ∧
    (handleMessage
        (.parsed "v1.connection.removed" (none : Option ConnParams)) s0).1 =
      s0 ∧
    (handleMessage .malformed s0).1 = s0 :=
  ⟨(c8_malformed_containment (.parsed "v9.unknown" (some pC1)) s0 []).2.2.1 rfl,
   (c8_malformed_containment
      (.parsed "v1.connection.removed" (none : Option ConnParams)) s0 []).2.1
      rfl,
   (c8_malformed_containment .malformed s0 []).1 rfl⟩

/-- C10: removal does not purge the pending queue.  A
v1.connection.removed for X leaves the pending queue untouched, and a
still-queued resolvable descriptor for X is promoted back into a stored
connection and a visual edge by the next drain pass. -/
theorem c10_removed_keeps_pending (s : FrontendState) (pX p : ConnParams) :
    ((handleMessage
        (.parsed "v1.connection.removed" (some pX)) s).1.pendingConnections =
      s.pendingConnections) ∧
    ((∀ l ∈ s.lines, l.lineId = pX.connectionId →
        ∃ e, mapGet s.connections pX.connectionId = some e ∧
          l.ref = e.line.ref) →
      s.pendingConnections.filter
          (fun q => q.connectionId == pX.connectionId) = [p] →
      p.connectionId = pX.connectionId →
      resolvable s.groups p = true →
      promoted
        (processPendingConnections
          ((handleMessage (.parsed "v1.connection.removed" (some pX)) s).1))
        pX.connectionId) := by
  constructor
  · rw [handleMessage_removed]
    cases hget : mapGet s.connections pX.connectionId with
    | some e => rfl
    | none => rfl
  · intro hco hfil hpid hres
    rw [handleMessage_removed]
    cases hget : mapGet s.connections pX.connectionId with
    | none =>
      apply drain_promotes _ p
      refine ⟨hfil, hpid, hres, ?_⟩
      show findLine s.lines pX.connectionId = none
      unfold findLine
      rw [List.find?_eq_none]
      intro l hl hbeq
      have hid : l.lineId = pX.connectionId := by simpa using hbeq
      obtain ⟨e, he, _⟩ := hco l hl hid
      rw [hget] at he
      cases he
    | some e =>
      apply drain_promotes _ p
      refine ⟨hfil, hpid, hres, ?_⟩
      show findLine (destroyLine s.lines e.line) pX.connectionId = none
      unfold findLine
      rw [List.find?_eq_none]
      intro l hl hbeq
      have hid : l.lineId = pX.connectionId := by simpa using hbeq
      have hl2 := (mem_destroyLine s.lines e.line l).mp hl
      obtain ⟨e2, he2, href⟩ := hco l hl2.1 hid
      rw [hget] at he2
      injection he2 with he3
      rw [← he3] at href
      exact hl2.2 href

/-- The committed-wire state with the same descriptor still queued. -/
def sResurrect : FrontendState :=
  { sHasC1 with pendingConnections := [pC1] }

/-- C10 witness: removing c1 from a state where its descriptor is still
queued leaves the queue intact, and the next drain resurrects c1. -/
theorem c10_removed_keeps_pending_witness :
    ((handleMessage
        (.parsed "v1.connection.removed" (some pC1))
        sResurrect).1.pendingConnections = sResurrect.pendingConnections) ∧
    promoted
      (processPendingConnections
        ((handleMessage
          (.parsed "v1.connection.removed" (some pC1)) sResurrect).1))
      "c1" := by
  constructor
  · exact (c10_removed_keeps_pending sResurrect pC1 pC1).1
  · exact (c10_removed_keeps_pending sResurrect pC1 pC1).2
      (by
        intro l hl hid
        have : l = lineC1 := by simpa [sResurrect, sHasC1, s0] using hl
        subst this
        exact ⟨entryC1, rfl, rfl⟩)
      rfl rfl rfl

/-- C1 counterexample: the claim says the Connection Store create
operation, called while an entry for the same id is already present,
detects it and does not create a second visual edge.  createWire has no
such check: called with id c1 on a state that already stores c1 and
shows its line, it puts a second line with id c1 on the layer. -/
theorem c1_counterexample :
    mapHas sHasC1.connections "c1" = true ∧
    countLines sHasC1.lines "c1" = 1 ∧
    countLines ((createWire "c1" "n1" portOut "n2" portIn sHasC1).2).lines
      "c1" = 2 :=
  ⟨rfl, rfl, rfl⟩

/-- C1 amended: idempotency by connection id holds on the
create-or-resolve path, enforced by the callers of createWire rather
than by createWire itself.  Resolving the same resolvable descriptor
twice leaves exactly one stored entry and one line for the id (the
second call adopts the existing line), and delivering the same
v1.connection.created broadcast twice makes the second delivery a
self-echo no-op, again leaving exactly one entry and one line. -/
theorem c1_create_or_resolve_idempotent (s : FrontendState) (p : ConnParams)
    (hres : resolvable s.groups p = true)
    (hnl : findLine s.lines p.connectionId = none)
    (hnc : mapHas s.connections p.connectionId = false) :
    (countLines
        ((renderLoadedConnection p
          ((renderLoadedConnection p s).2)).2).lines p.connectionId = 1 ∧
      countEntries
        ((renderLoadedConnection p
          ((renderLoadedConnection p s).2)).2).connections
        p.connectionId = 1) ∧
    ((handleMessage (.parsed "v1.connection.created" (some p))
        ((handleMessage
          (.parsed "v1.connection.created" (some p)) s).1)).2 = .selfEcho ∧
      countLines
        ((handleMessage (.parsed "v1.connection.created" (some p))
          ((handleMessage
            (.parsed "v1.connection.created" (some p)) s).1)).1).lines
        p.connectionId = 1 ∧
      countEntries
        ((handleMessage (.parsed "v1.connection.created" (some p))
          ((handleMessage
            (.parsed "v1.connection.created" (some p)) s).1)).1).connections
        p.connectionId = 1) := by
  obtain ⟨sc, tc, sp, tp, hsc, htc, hsp, htp⟩ := resolvable_elim _ _ hres
  have hstep1 := render_resolved_noline p s sc tc sp tp hsc htc hsp htp hnl
  have hl1 :
      findLine (s.lines ++ [mintedLine p sp tp s.nextRef]) p.connectionId =
        some (mintedLine p sp tp s.nextRef) := by
    unfold findLine
    unfold findLine at hnl
    rw [find?_append_of_none _ _ _ hnl]
    simp [mintedLine]
  have hcount1 :
      countLines (s.lines ++ [mintedLine p sp tp s.nextRef])
        p.connectionId = 1 := by
    rw [countLines_append, countLines_zero_of_findLine_none s.lines _ hnl]
    simp [countLines, mintedLine]
  have hentry1 :
      countEntries
        (mapSet s.connections p.connectionId
          (resolvedEntry p sp tp (mintedLine p sp tp s.nextRef)))
        p.connectionId = 1 :=
    countEntries_set_of_not_has _ _ _ hnc
  have hhas1 :
      mapHas
        (mapSet s.connections p.connectionId
          (resolvedEntry p sp tp (mintedLine p sp tp s.nextRef)))
        p.connectionId = true :=
    mapHas_set_self _ _ _
  constructor
  · simp only [hstep1]
    have hstep2 :=
      render_resolved_line_has p
        ((renderLoadedConnection p s).2) sc tc sp tp
        (mintedLine p sp tp s.nextRef)
    simp only [hstep1] at hstep2
    rw [hstep2 hsc htc hsp htp hl1 hhas1]
    exact ⟨hcount1, hentry1⟩
  · have hd1 :
        handleMessage (.parsed "v1.connection.created" (some p)) s =
          ((renderLoadedConnection p s).2, .ok) := by
      rw [handleMessage_created, if_neg (by simp [hnc])]
    have hd2 :
        handleMessage (.parsed "v1.connection.created" (some p))
            ((renderLoadedConnection p s).2) =
          (((renderLoadedConnection p s).2), .selfEcho) := by
      rw [handleMessage_created, if_pos (by simp only [hstep1]; exact hhas1)]
    simp only [hstep1] at hd2
    simp only [hd1, hstep1, hd2]
    exact ⟨trivial, hcount1, hentry1⟩

/-- C1 witness for the amended theorem: on the two-component baseline,
resolving or receiving c1 twice yields exactly one entry and one line. -/
theorem c1_create_or_resolve_idempotent_witness :
    (countLines
        ((renderLoadedConnection pC1
          ((renderLoadedConnection pC1 s0).2)).2).lines "c1" = 1 ∧
      countEntries
        ((renderLoadedConnection pC1
          ((renderLoadedConnection pC1 s0).2)).2).connections "c1" = 1) ∧
    ((handleMessage (.parsed "v1.connection.created" (some pC1))
        ((handleMessage
          (.parsed "v1.connection.created" (some pC1)) s0).1)).2 =
      .selfEcho ∧
      countLines
        ((handleMessage (.parsed "v1.connection.created" (some pC1))
          ((handleMessage
            (.parsed "v1.connection.created" (some pC1)) s0).1)).1).lines
        "c1" = 1 ∧
      countEntries
        ((handleMessage (.parsed "v1.connection.created" (some pC1))
          ((handleMessage
            (.parsed "v1.connection.created" (some pC1)) s0).1)).1).connections
        "c1" = 1) :=
  c1_create_or_resolve_idempotent s0 pC1 rfl rfl rfl

/-- The baseline with no components: every descriptor defers. -/
def sNoComps : FrontendState := { s0 with groups := [] }

/-- C2 counterexample: the inbound dispatcher has no branch for the
method name v1.connection.create, which the claim (and the spec message
table) give for the server-to-clients broadcast.  Delivered on a state
where the descriptor renders (both components present, id unknown), the
message falls through as unrecognized: no connection is created and
nothing is queued, although rendering the descriptor would have
succeeded.  The branch the code dispatches is v1.connection.created. -/
theorem c2_counterexample :
    (handleMessage (.parsed "v1.connection.create" (some pC1)) s0).1 = s0 ∧
    (handleMessage (.parsed "v1.connection.create" (some pC1)) s0).2 =
      .unknownMethod ∧
    (renderLoadedConnection pC1 s0).1 = true :=
  ⟨rfl, rfl, rfl⟩

/-- C2 amended: for every inbound v1.connection.created broadcast — the
method name the code dispatches — an id already in the connections Map
makes the message a logged self-echo no-op; otherwise the handler
renders the descriptor, queueing it under its id when rendering cannot
complete; and after the same broadcast arrives twice on a renderable
state, the second arrival is a self-echo and exactly one connection
persists. -/
theorem c2_created_broadcast (s : FrontendState) (p : ConnParams) :
    (mapHas s.connections p.connectionId = true →
      handleMessage (.parsed "v1.connection.created" (some p)) s =
        (s, .selfEcho)) ∧
    (mapHas s.connections p.connectionId = false →
      (handleMessage (.parsed "v1.connection.created" (some p)) s).1 =
        (renderLoadedConnection p s).2) ∧
    (mapHas s.connections p.connectionId = false →
      resolvable s.groups p = false →
      ∃ q ∈ ((handleMessage (.parsed "v1.connection.created" (some p))
          s).1).pendingConnections, q.connectionId = p.connectionId) ∧
    (mapHas s.connections p.connectionId = false →
      resolvable s.groups p = true →
      findLine s.lines p.connectionId = none →
      (handleMessage (.parsed "v1.connection.created" (some p))
          ((handleMessage
            (.parsed "v1.connection.created" (some p)) s).1)).2 =
        .selfEcho ∧
      countEntries
        ((handleMessage (.parsed "v1.connection.created" (some p))
          ((handleMessage
            (.parsed "v1.connection.created" (some p)) s).1)).1).connections
        p.connectionId = 1) := by
  refine ⟨?_, ?_, ?_, ?_⟩
  · intro h
    rw [handleMessage_created, if_pos h]
  · intro h
    rw [handleMessage_created, if_neg (by simp [h])]
  · intro h hr
    rw [handleMessage_created, if_neg (by simp [h])]
    rw [render_deferred p s hr]
    unfold queueIfAbsent
    by_cases hq :
        (s.pendingConnections.any
          (fun q => q.connectionId == p.connectionId)) = true
    · rw [if_pos hq]
      obtain ⟨q, hqm, hqp⟩ := List.any_eq_true.mp hq
      exact ⟨q, hqm, by simpa using hqp⟩
    · rw [if_neg hq]
      exact ⟨p, by simp, rfl⟩
  · intro hnc hres hnl
    obtain ⟨sc, tc, sp, tp, hsc, htc, hsp, htp⟩ := resolvable_elim _ _ hres
    have hstep1 := render_resolved_noline p s sc tc sp tp hsc htc hsp htp hnl
    have hhas1 :
        mapHas
          (mapSet s.connections p.connectionId
            (resolvedEntry p sp tp (mintedLine p sp tp s.nextRef)))
          p.connectionId = true :=
      mapHas_set_self _ _ _
    have hd1 :
        handleMessage (.parsed "v1.connection.created" (some p)) s =
          ((renderLoadedConnection p s).2, .ok) := by
      rw [handleMessage_created, if_neg (by simp [hnc])]
    have hd2 :
        handleMessage (.parsed "v1.connection.created" (some p))
            ((renderLoadedConnection p s).2) =
          (((renderLoadedConnection p s).2), .selfEcho) := by
      rw [handleMessage_created, if_pos (by simp only [hstep1]; exact hhas1)]
    have hentry1 :
        countEntries
          (mapSet s.connections p.connectionId
            (resolvedEntry p sp tp (mintedLine p sp tp s.nextRef)))
          p.connectionId = 1 :=
      countEntries_set_of_not_has _ _ _ hnc
    simp only [hstep1] at hd2
    simp only [hd1, hstep1, hd2]
    exact ⟨trivial, hentry1⟩

/-- C2 witness for the amended theorem: the created broadcast for a
stored id is a self-echo no-op, and for an unresolvable descriptor the
id lands in the pending queue. -/
theorem c2_created_broadcast_witness :
    handleMessage (.parsed "v1.connection.created" (some pC1)) sHasC1 =
      (sHasC1, .selfEcho) ∧
    ∃ q ∈ ((handleMessage (.parsed "v1.connection.created" (some pC1))
        sNoComps).1).pendingConnections, q.connectionId = "c1" :=
  ⟨(c2_created_broadcast sHasC1 pC1).1 rfl,
   (c2_created_broadcast sNoComps pC1).2.2.1 rfl rfl⟩

/-- A stale entry for c1 pointing at components that no longer exist,
with no line on the layer (the entry-without-edge inconsistency). -/
def staleEntryC1 : ConnEntry :=
  { id := "c1", fromParent := "zz", fromPort := portOut,
    toParent := "zz2", toPort := portIn,
    line := { ref := 7, lineId := "c1", pts := (0, 0, 0, 0) } }

def cex4State : FrontendState :=
  { s0 with connections := [("c1", staleEntryC1)], nextRef := 8 }

/-- C4 counterexample: in the entry-without-edge direction the claim
says the inconsistency is repaired by adopting the existing artifact.
The code instead recreates the edge and overwrites the stale Map entry
with a freshly resolved one: after resolution the stored entry for c1
names source component n1, no longer the stale zz. -/
theorem c4_counterexample :
    (renderLoadedConnection pC1 cex4State).1 = true ∧
    (mapGet cex4State.connections "c1").map ConnEntry.fromParent =
      some "zz" ∧
    (mapGet ((renderLoadedConnection pC1 cex4State).2).connections
        "c1").map ConnEntry.fromParent = some "n1" :=
  ⟨rfl, rfl, rfl⟩

/-- C4 amended: when both components and ports resolve, any pending
entry under the id is removed (a no-op if absent); if a line with the
id already exists the call reports handled without a new edge, adopting
the line into the Map entry when the entry is missing and leaving the
Map alone when it is present; and an entry-without-edge inconsistency
is repaired without failing by recreating the edge and overwriting the
entry (not by adopting the stale entry). -/
theorem c4_resolution_step3 (s : FrontendState) (p : ConnParams)
    (sc tc : ComponentGroup) (sp tp : Port)
    (hsc : findGroup s.groups p.sourceComponentId = some sc)
    (htc : findGroup s.groups p.targetComponentId = some tc)
    (hsp : findPortCircle sc p.sourcePortName = some sp)
    (htp : findPortCircle tc p.targetPortName = some tp)
    (hone : countPending s.pendingConnections p.connectionId ≤ 1) :
    (countPending
        ((renderLoadedConnection p s).2).pendingConnections
        p.connectionId = 0) ∧
    (∀ l, findLine s.lines p.connectionId = some l →
      ((renderLoadedConnection p s).2).lines = s.lines ∧
      (renderLoadedConnection p s).1 = true ∧
      (mapHas s.connections p.connectionId = false →
        mapGet ((renderLoadedConnection p s).2).connections p.connectionId =
          some (resolvedEntry p sp tp l)) ∧
      (mapHas s.connections p.connectionId = true →
        ((renderLoadedConnection p s).2).connections = s.connections)) ∧
    (findLine s.lines p.connectionId = none →
      mapHas s.connections p.connectionId = true →
      (renderLoadedConnection p s).1 = true ∧
      ((renderLoadedConnection p s).2).lines =
        s.lines ++ [mintedLine p sp tp s.nextRef] ∧
      mapGet ((renderLoadedConnection p s).2).connections p.connectionId =
        some (resolvedEntry p sp tp (mintedLine p sp tp s.nextRef))) := by
  refine ⟨?_, ?_, ?_⟩
  · cases hl : findLine s.lines p.connectionId with
    | none =>
      rw [render_resolved_noline p s sc tc sp tp hsc htc hsp htp hl]
      exact countPending_eraseP_self _ _ hone
    | some l =>
      by_cases hh : mapHas s.connections p.connectionId = true
      · rw [render_resolved_line_has p s sc tc sp tp l hsc htc hsp htp hl hh]
        exact countPending_eraseP_self _ _ hone
      · rw [render_resolved_line_nohas p s sc tc sp tp l hsc htc hsp htp hl
          (by simpa using hh)]
        exact countPending_eraseP_self _ _ hone
  · intro l hl
    by_cases hh : mapHas s.connections p.connectionId = true
    · rw [render_resolved_line_has p s sc tc sp tp l hsc htc hsp htp hl hh]
      exact ⟨rfl, rfl, (by intro h; rw [h] at hh; cases hh), (by intro _; rfl)⟩
    · rw [render_resolved_line_nohas p s sc tc sp tp l hsc htc hsp htp hl
        (by simpa using hh)]
      refine ⟨rfl, rfl, ?_, ?_⟩
      · intro _
        exact mapGet_set_self _ _ _
      · intro h
        exact absurd h hh
  · intro hl hh
    rw [render_resolved_noline p s sc tc sp tp hsc htc hsp htp hl]
    exact ⟨rfl, rfl, mapGet_set_self _ _ _⟩

/-- The baseline with the line c1 already on the layer, its descriptor
still queued, and no Map entry (the edge-without-entry inconsistency). -/
def sAdopt : FrontendState :=
  { s0 with lines := [lineC1], pendingConnections := [pC1], nextRef := 1 }

/-- C4 witness: resolving c1 over an existing line removes the pending
entry, creates no new line, and repairs the missing Map entry by
adopting the existing line. -/
theorem c4_resolution_step3_witness :
    countPending
        ((renderLoadedConnection pC1 sAdopt).2).pendingConnections
        "c1" = 0 ∧
    ((renderLoadedConnection pC1 sAdopt).2).lines = sAdopt.lines ∧
    mapGet ((renderLoadedConnection pC1 sAdopt).2).connections "c1" =
      some (resolvedEntry pC1 portOut portIn lineC1) := by
  have h := c4_resolution_step3 sAdopt pC1 g1 g2 portOut portIn
    rfl rfl rfl rfl (by decide)
  exact ⟨h.1, (h.2.1 lineC1 rfl).1, (h.2.1 lineC1 rfl).2.2.1 rfl⟩

/-- The descriptor first queued for c1 (stale endpoints). -/
def pOldC1 : ConnParams :=
  { connectionId := "c1", sourceComponentId := "A",
    sourcePortName := "output", targetComponentId := "B",
    targetPortName := "input" }

/-- A later descriptor for the same id with different endpoints. -/
def pNewC1 : ConnParams :=
  { connectionId := "c1", sourceComponentId := "C",
    sourcePortName := "output", targetComponentId := "D",
    targetPortName := "input" }

def cex5State : FrontendState :=
  { s0 with groups := [], pendingConnections := [pOldC1] }

/-- C5 counterexample: the claim says a deferred descriptor REPLACES any
entry already queued under the same id.  The code keeps the old entry
and drops the new descriptor: deferring pNewC1 while pOldC1 is queued
under c1 leaves the queue at the old entry and the new descriptor is
nowhere in it. -/
theorem c5_counterexample :
    ((renderLoadedConnection pNewC1 cex5State).2).pendingConnections =
      [pOldC1] ∧
    pNewC1 ∉
      ((renderLoadedConnection pNewC1 cex5State).2).pendingConnections := by
  refine ⟨rfl, by decide⟩

/-- C5 amended: when resolution defers (missing component or port), it
returns false without touching the connections Map or the layer; the
descriptor is appended when nothing is queued under its id and SKIPPED
(the existing entry kept, not replaced) when something is; and every
resolution attempt preserves the at-most-one-entry-per-id queue
invariant. -/
theorem c5_defer_queue (s : FrontendState) (p : ConnParams) :
    (resolvable s.groups p = false →
      (renderLoadedConnection p s).1 = false ∧
      ((renderLoadedConnection p s).2).connections = s.connections ∧
      ((renderLoadedConnection p s).2).lines = s.lines ∧
      (countPending s.pendingConnections p.connectionId = 0 →
        ((renderLoadedConnection p s).2).pendingConnections =
          s.pendingConnections ++ [p]) ∧
      (0 < countPending s.pendingConnections p.connectionId →
        ((renderLoadedConnection p s).2).pendingConnections =
          s.pendingConnections)) ∧
    ((∀ Y, countPending s.pendingConnections Y ≤ 1) →
      ∀ Y,
        countPending ((renderLoadedConnection p s).2).pendingConnections Y ≤
          1) := by
  constructor
  · intro hr
    rw [render_deferred p s hr]
    unfold queueIfAbsent
    by_cases hq :
        (s.pendingConnections.any
          (fun q => q.connectionId == p.connectionId)) = true
    · rw [if_pos hq]
      refine ⟨rfl, rfl, rfl, ?_, fun _ => rfl⟩
      intro h0
      have := (countPending_pos_iff_any _ _).mp hq
      omega
    · rw [if_neg hq]
      refine ⟨rfl, rfl, rfl, fun _ => rfl, ?_⟩
      intro hpos
      have := (countPending_pos_iff_any s.pendingConnections
        p.connectionId).mpr hpos
      exact absurd this hq
  · intro hb Y
    by_cases hr : resolvable s.groups p = true
    · obtain ⟨sc, tc, sp, tp, hsc, htc, hsp, htp⟩ := resolvable_elim _ _ hr
      have hsub :
          ((renderLoadedConnection p s).2).pendingConnections =
            s.pendingConnections.eraseP
              (fun q => q.connectionId == p.connectionId) := by
        cases hl : findLine s.lines p.connectionId with
        | none =>
          rw [render_resolved_noline p s sc tc sp tp hsc htc hsp htp hl]
        | some l =>
          by_cases hh : mapHas s.connections p.connectionId = true
          · rw [render_resolved_line_has p s sc tc sp tp l
              hsc htc hsp htp hl hh]
          · rw [render_resolved_line_nohas p s sc tc sp tp l
              hsc htc hsp htp hl (by simpa using hh)]
      rw [hsub]
      exact le_trans
        (countPending_sublist_le _ _ (List.eraseP_sublist _) Y) (hb Y)
    · rw [render_deferred p s (by simpa using hr)]
      unfold queueIfAbsent
      by_cases hq :
          (s.pendingConnections.any
            (fun q => q.connectionId == p.connectionId)) = true
      · rw [if_pos hq]
        exact hb Y
      · rw [if_neg hq]
        rw [countPending_append]
        by_cases hY : (p.connectionId == Y) = true
        · have hz : countPending s.pendingConnections p.connectionId = 0 := by
            by_contra hnz
            exact hq ((countPending_pos_iff_any _ _).mpr
              (Nat.pos_of_ne_zero hnz))
          have hzY : countPending s.pendingConnections Y = 0 := by
            have heq : p.connectionId = Y := by simpa using hY
            rw [← heq]
            exact hz
          have hsingle : countPending [p] Y ≤ 1 := by
            unfold countPending
            simp [List.filter_cons, hY]
          omega
        · have hzp : countPending [p] Y = 0 := by
            unfold countPending
            simp only [List.filter_cons, hY, Bool.false_eq_true, if_false]
            rfl
          rw [hzp]
          simpa using hb Y

/-- C5 witness for the amended theorem: deferring c1 with no components
present reports failure and appends the descriptor once. -/
theorem c5_defer_queue_witness :
    (renderLoadedConnection pC1 sNoComps).1 = false ∧
    ((renderLoadedConnection pC1 sNoComps).2).pendingConnections = [pC1] := by
  have h := (c5_defer_queue sNoComps pC1).1 rfl
  exact ⟨h.1, h.2.2.2.1 rfl⟩

/-- A burst of calls whose consecutive gaps are below the wait window
produces exactly one firing of the debounced function. -/
theorem debounceFires_burst (wait : Nat) :
    ∀ ts : List Nat, ts ≠ [] →
      List.Chain' (fun a b => b < a + wait) ts →
      (debounceFires wait ts).length = 1 := by
  intro ts
  induction ts with
  | nil => intro h _; exact absurd rfl h
  | cons t rest ih =>
    intro _ hch
    cases rest with
    | nil => rfl
    | cons t2 rest2 =>
      rw [List.chain'_cons] at hch
      show (if t2 < t + wait then debounceFires wait (t2 :: rest2)
            else (t + wait) :: debounceFires wait (t2 :: rest2)).length = 1
      rw [if_pos hch.1]
      exact ih (by simp) hch.2

/-- The drain unfolded to its snapshot, core pass and final draw. -/
theorem processPendingConnections_eq (s : FrontendState) :
    processPendingConnections s =
      (if (s.pendingConnections.map (fun q => q.connectionId)).isEmpty then s
      else
        (if 0 < (processPendingCore
            (s.pendingConnections.map (fun q => q.connectionId)) s).2 then
          { (processPendingCore
              (s.pendingConnections.map (fun q => q.connectionId)) s).1 with
            draws :=
              (processPendingCore
                (s.pendingConnections.map (fun q => q.connectionId)) s).1.draws
                + 1 }
        else
          (processPendingCore
            (s.pendingConnections.map (fun q => q.connectionId)) s).1)) := rfl

/-- A single queued resolvable descriptor: one drain pass draws twice. -/
def cex7State : FrontendState := { s0 with pendingConnections := [pC1] }

/-- C7 counterexample: the claim says the canvas is redrawn exactly once
after a pass in which at least one descriptor resolved.  On a state with
one resolvable queued descriptor and a zero draw count, the pass draws
TWICE: once inside createWire when the descriptor resolves, and once
after the pass. -/
theorem c7_counterexample :
    (processPendingCore
        (cex7State.pendingConnections.map (fun q => q.connectionId))
        cex7State).2 = 1 ∧
    cex7State.draws = 0 ∧
    (processPendingConnections cex7State).draws = 2 :=
  ⟨rfl, rfl, rfl⟩

/-- C7 amended: node-added drains go through a 16ms debounce whose
bursts coalesce into one pass; a pass iterates the snapshot of queued
ids so that a resolvable waiting descriptor is promoted even though the
queue mutates mid-pass; and the pass redraws once per newly created edge
during the pass plus one final redraw precisely when at least one
descriptor resolved — not exactly once in total. -/
theorem c7_drain_pass (s : FrontendState) (X : String) (p : ConnParams)
    (ts : List Nat) :
    (debounceWait = 16 ∧
      addEventTriggersDrain "component_group" true = true ∧
      (ts ≠ [] → List.Chain' (fun a b => b < a + debounceWait) ts →
        (debounceFires debounceWait ts).length = 1)) ∧
    (waitingFor s X p → promoted (processPendingConnections s) X) ∧
    ((processPendingConnections s).lines =
        (processPendingCore
          (s.pendingConnections.map (fun q => q.connectionId)) s).1.lines ∧
      (processPendingConnections s).draws + s.lines.length =
        s.draws + (processPendingConnections s).lines.length +
          (if 0 < (processPendingCore
              (s.pendingConnections.map (fun q => q.connectionId)) s).2
          then 1 else 0)) := by
  refine ⟨⟨rfl, rfl, debounceFires_burst debounceWait ts⟩, ?_, ?_⟩
  · intro hw
    exact drain_promotes X p s hw
  · rw [processPendingConnections_eq]
    by_cases hie :
        (s.pendingConnections.map (fun q => q.connectionId)).isEmpty = true
    · rw [if_pos hie]
      have hids : s.pendingConnections.map (fun q => q.connectionId) = [] :=
        List.isEmpty_iff.mp hie
      rw [hids]
      refine ⟨rfl, ?_⟩
      have h0 : (processPendingCore [] s).2 = 0 := rfl
      rw [h0]
      simp
    · rw [if_neg hie]
      have hkey :
          (processPendingCore
            (s.pendingConnections.map (fun q => q.connectionId)) s).1 =
            drainFold
              (s.pendingConnections.map (fun q => q.connectionId)) s :=
        coreFold_fst _ (s, 0)
      have hdl :=
        drainFold_draws_lines
          (s.pendingConnections.map (fun q => q.connectionId)) s
      rw [← hkey] at hdl
      by_cases h2 :
          0 < (processPendingCore
            (s.pendingConnections.map (fun q => q.connectionId)) s).2
      · rw [if_pos h2, if_pos h2]
        refine ⟨rfl, ?_⟩
        dsimp only
        omega
      · rw [if_neg h2, if_neg h2]
        exact ⟨rfl, by omega⟩

/-- C7 witness for the amended theorem: on the single-descriptor state,
the drain promotes c1, the pass lines are the core pass lines, and the
draw count satisfies the per-edge-plus-final accounting. -/
theorem c7_drain_pass_witness :
    promoted (processPendingConnections cex7State) "c1" ∧
    ((processPendingConnections cex7State).lines =
        (processPendingCore
          (cex7State.pendingConnections.map (fun q => q.connectionId))
          cex7State).1.lines ∧
      (processPendingConnections cex7State).draws +
          cex7State.lines.length =
        cex7State.draws + (processPendingConnections cex7State).lines.length +
          (if 0 < (processPendingCore
              (cex7State.pendingConnections.map (fun q => q.connectionId))
              cex7State).2
          then 1 else 0)) :=
  ⟨(c7_drain_pass cex7State "c1" pC1 []).2.1
      ⟨rfl, rfl, rfl, rfl⟩,
   (c7_drain_pass cex7State "c1" pC1 []).2.2⟩

/-- A descriptor whose port names are swapped: it asks for the port
named input on the source side and the port named output on the target
side. -/
def pSwap : ConnParams :=
  { connectionId := "c2", sourceComponentId := "n1",
    sourcePortName := "input", targetComponentId := "n2",
    targetPortName := "output" }

/-- C9 counterexample: descriptor resolution looks ports up by name and
Circle class only and never checks direction, so a swapped descriptor
resolves and stores a connection whose source port direction (its Konva
name) is input and whose target port direction is output, violating the
claimed invariant for connections entering the map. -/
theorem c9_counterexample :
    (renderLoadedConnection pSwap s0).1 = true ∧
    (mapGet ((renderLoadedConnection pSwap s0).2).connections "c2").map
        (fun e => e.fromPort.portName) = some "input" ∧
    (mapGet ((renderLoadedConnection pSwap s0).2).connections "c2").map
        (fun e => e.toPort.portName) = some "output" :=
  ⟨rfl, rfl, rfl⟩

/-- C9 amended: a locally committed connection always stores the
gesture's output circle as source and input circle as target (the
mousedown and mouseup handlers are attached to those circles); for a
rendered descriptor the lookup is by port name and Circle class within
the named parent component — disambiguating same-named ports across
parents — so the stored port names equal the descriptor's names, and
the direction invariant holds exactly when the descriptor names the
output port as source and the input port as target. -/
theorem c9_port_directions (s : FrontendState)
    (parentId spParent freshId : String) (port sp : Port) (p : ConnParams)
    (sc tc : ComponentGroup) (spd tpd : Port) :
    (s.isWiring = true → s.startPort = some (spParent, sp) →
      spParent ≠ parentId → sp.portName = "output" →
      port.portName = "input" →
      ∃ e,
        mapGet (inputMouseup parentId port freshId s).connections freshId =
          some e ∧
        e.fromPort.portName = "output" ∧ e.toPort.portName = "input" ∧
        e.fromParent = spParent ∧ e.toParent = parentId) ∧
    (findGroup s.groups p.sourceComponentId = some sc →
      findGroup s.groups p.targetComponentId = some tc →
      findPortCircle sc p.sourcePortName = some spd →
      findPortCircle tc p.targetPortName = some tpd →
      spd ∈ sc.ports ∧ spd.portName = p.sourcePortName ∧
      spd.className = "Circle" ∧ tpd ∈ tc.ports ∧
      tpd.portName = p.targetPortName ∧ tpd.className = "Circle") ∧
    (findGroup s.groups p.sourceComponentId = some sc →
      findGroup s.groups p.targetComponentId = some tc →
      findPortCircle sc p.sourcePortName = some spd →
      findPortCircle tc p.targetPortName = some tpd →
      findLine s.lines p.connectionId = none →
      mapGet ((renderLoadedConnection p s).2).connections p.connectionId =
        some (resolvedEntry p spd tpd (mintedLine p spd tpd s.nextRef))) := by
  refine ⟨?_, ?_, ?_⟩
  · intro hw hsp hne hspo hpin
    have hres :
        (inputMouseup parentId port freshId s).connections =
          mapSet s.connections freshId
            { id := freshId, fromParent := spParent, fromPort := sp,
              toParent := parentId, toPort := port,
              line := { ref := s.nextRef, lineId := freshId,
                        pts := (sp.x, sp.y, port.x, port.y) } } := by
      simp only [inputMouseup, hw, hsp]
      simp only [createWire]
      by_cases hso : s.socketOpen = true <;> simp [hne, hso]
    rw [hres]
    exact ⟨_, mapGet_set_self _ _ _, hspo, hpin, rfl, rfl⟩
  · intro _ _ hspd htpd
    have h1 := List.find?_some hspd
    have h2 := List.find?_some htpd
    rw [Bool.and_eq_true] at h1 h2
    refine ⟨List.mem_of_find?_eq_some hspd, by simpa using h1.1,
      by simpa using h1.2, List.mem_of_find?_eq_some htpd,
      by simpa using h2.1, by simpa using h2.2⟩
  · intro hsc htc hspd htpd hnl
    rw [render_resolved_noline p s sc tc spd tpd hsc htc hspd htpd hnl]
    exact mapGet_set_self _ _ _

/-- C9 witness for the amended theorem: a committed gesture from the
output of n1 to the input of n2 stores output as source and input as
target, and resolving a well-formed descriptor stores the ports looked
up by the descriptor's names. -/
theorem c9_port_directions_witness :
    (∃ e,
      mapGet (inputMouseup "n2" portIn "c9" sWiring).connections "c9" =
        some e ∧
      e.fromPort.portName = "output" ∧ e.toPort.portName = "input" ∧
      e.fromParent = "n1" ∧ e.toParent = "n2") ∧
    mapGet ((renderLoadedConnection pC1 s0).2).connections "c1" =
      some (resolvedEntry pC1 portOut portIn (mintedLine pC1 portOut portIn 0)) :=
  ⟨(c9_port_directions sWiring "n2" "n1" "c9" portIn portOut pC1
      g1 g2 portOut portIn).1 rfl rfl (by decide) rfl rfl,
   (c9_port_directions s0 "x" "y" "z" portIn portOut pC1
      g1 g2 portOut portIn).2.2 rfl rfl rfl rfl rfl⟩

end GraphBoy
